import Mathlib

/-!
Shallow embedding of `memory.py` (class `MemoryManager`).

The mutable object state (`self.short_term`, `self.short_term_limit`,
`self.user_message_count`) becomes the structure `MMState`; each method
becomes a function taking and returning such a state.  Python exceptions
are modelled with `Option`/`Except`: a method that can raise returns
`none`/`Except.error` instead of a new state.  `print` calls write to
stdout only and touch no manager state, so they are not modelled.
The `chroma_client`/`collection` fields are the constants `None` in the
source and carry no behaviour, so they are omitted from the state.
-/

/-- State of a `MemoryManager` object.  `short_term_limit` is a Python int
(the constructor accepts any integer), hence `Int` here; the constructor
default is 10.  `user_message_count` starts at 0 and is only ever
incremented, hence `Nat`. -/
structure MMState where
  shortTerm : List String
  shortTermLimit : Int
  userMessageCount : Nat
  deriving DecidableEq, Repr

/-- `MemoryManager.__init__`: empty buffer, given limit, zero counter. -/
def initState (shortTermLimit : Nat) : MMState :=
  ⟨[], (shortTermLimit : Int), 0⟩

/-- The rendered line `f"{role}: {content}"` appended by `add_to_short_term`. -/
def render (role content : String) : String :=
  role ++ ": " ++ content

/-- The loop `while len(self.short_term) > self.short_term_limit:
self.short_term.pop(0)`.  `pop(0)` on an empty list raises `IndexError`,
modelled as `none`. -/
def popLoop (limit : Int) : List String → Option (List String)
  | [] => if ((([] : List String).length : Int) > limit) then none else some []
  | a :: t => if (((a :: t).length : Int) > limit) then popLoop limit t else some (a :: t)

/-- `MemoryManager.add_to_short_term(role, content)`: append the rendered
line, evict from the front while over the limit, then increment
`user_message_count` when `role.lower() == "user"`. -/
def addToShortTerm (st : MMState) (role content : String) : Option MMState :=
  match popLoop st.shortTermLimit (st.shortTerm ++ [render role content]) with
  | none => none
  | some l =>
      some ⟨l, st.shortTermLimit,
        if role.toLower == "user" then st.userMessageCount + 1 else st.userMessageCount⟩

/-- `MemoryManager.get_short_term_context()`. -/
def getShortTermContext (st : MMState) : List String :=
  st.shortTerm

/-- A sequence of `add_to_short_term` calls, each given as (role, content). -/
def runAdds : MMState → List (String × String) → Option MMState
  | st, [] => some st
  | st, p :: rest =>
      match addToShortTerm st p.1 p.2 with
      | none => none
      | some st' => runAdds st' rest

/-- `MemoryManager.store_long_term_memory(summary)`: the body is a single
`print`; no field of the manager is read or written, so the state is
returned unchanged. -/
def storeLongTermMemory (st : MMState) (_summary : String) : MMState :=
  st

/-- `MemoryManager.get_relevant_memories(query)`: the body prints and then
executes `return []`. -/
def getRelevantMemories (_st : MMState) (_query : String) : List String :=
  []

/-- The f-string prompt built inside `maybe_summarize_short_term` (the
triple-quoted literal keeps its 12-space source indentation). -/
def summarizationPrompt (conversationText : String) : String :=
  "Summarize the following conversation into key points or Q&A pairs:\n            ---\n            "
    ++ conversationText
    ++ "\n            ---\n            Return the most important facts or topics that should be remembered."

/-- Observable outcome of one `maybe_summarize_short_term` call: the manager
state afterwards, the arguments of the `store_long_term_memory` calls it
made, and whether it returned normally (`Except.ok`) or let an exception
from `llm_module.generate_response_for_memory` escape (`Except.error`). -/
structure SummarizeOutcome where
  state : MMState
  storeCalls : List String
  result : Except String Unit
  deriving Repr

/-- `MemoryManager.maybe_summarize_short_term(llm_module)`.  The delegate
`llm_module.generate_response_for_memory` may raise, modelled as
`Except.error`; the method body contains no `try`/`except`, so such an
error escapes to the caller, after which `store_long_term_memory` is not
reached.  Nothing before the delegate call mutates the state. -/
def maybeSummarizeShortTerm (st : MMState) (llm : String → Except String String) :
    SummarizeOutcome :=
  if st.userMessageCount % 10 = 0 ∧ st.userMessageCount > 0 then
    match llm (summarizationPrompt (String.intercalate "\n" st.shortTerm)) with
    | Except.error e => ⟨st, [], Except.error e⟩
    | Except.ok summary => ⟨storeLongTermMemory st summary, [summary], Except.ok ()⟩
  else ⟨st, [], Except.ok ()⟩

/-- `MemoryManager.build_llm_prompt(user_message, relevant_memories)`:
the returned f-string, transcribed literally. -/
def buildLlmPrompt (st : MMState) (userMessage : String) (relevantMemories : List String) :
    String :=
  "\nYou are a helpful assistant. Below are relevant facts from memory:\n"
    ++ String.intercalate "\n" relevantMemories
    ++ "\n\nHere is the recent conversation:\n"
    ++ String.intercalate "\n" st.shortTerm
    ++ "\n\nNow the user says:\nUser: "
    ++ userMessage
    ++ "\n\nPlease respond in a clear and concise manner.\n"

/-- Fixed text of `build_llm_prompt` before the facts section. -/
def promptFactsHeader : String :=
  "\nYou are a helpful assistant. Below are relevant facts from memory:\n"

/-- Fixed text of `build_llm_prompt` between the facts and the conversation. -/
def promptConversationHeader : String :=
  "\n\nHere is the recent conversation:\n"

/-- Fixed text of `build_llm_prompt` between the conversation and the new
user message. -/
def promptUserHeader : String :=
  "\n\nNow the user says:\nUser: "

/-- Fixed closing instruction of `build_llm_prompt`. -/
def promptClosing : String :=
  "\n\nPlease respond in a clear and concise manner.\n"

/-- The last `n` elements of a list, in order. -/
def lastN (n : Nat) (l : List α) : List α :=
  l.drop (l.length - n)

/-- How many of the given (role, content) pairs `add_to_short_term` counts
as user messages (`role.lower() == "user"`). -/
def countUsers (pairs : List (String × String)) : Nat :=
  (pairs.filter (fun p => p.1.toLower == "user")).length

/-- Consolidation observably fired in an outcome: a summary was stored, or
the delegate was called and its exception escaped. -/
def consolidationFired (o : SummarizeOutcome) : Prop :=
  o.storeCalls ≠ [] ∨ o.result ≠ Except.ok ()

/- ------------------------------------------------------------------ -/
/- Helper lemmas                                                       -/
/- ------------------------------------------------------------------ -/

theorem popLoop_of_nonneg (limit : Int) (h : 0 ≤ limit) (l : List String) :
    popLoop limit l = some (l.drop (l.length - limit.toNat)) := by
  induction l with
  | nil =>
      simp only [popLoop]
      rw [if_neg (by simp only [List.length_nil, Nat.cast_zero]; omega)]
      simp
  | cons a t ih =>
      simp only [popLoop]
      by_cases hc : (((a :: t).length : Int) > limit)
      · rw [if_pos hc, ih]
        have h1 : limit.toNat ≤ t.length := by
          simp only [List.length_cons] at hc
          omega
        rw [List.length_cons,
          show t.length + 1 - limit.toNat = (t.length - limit.toNat) + 1 by omega,
          List.drop_succ_cons]
      · rw [if_neg hc]
        have h2 : (a :: t).length ≤ limit.toNat := by
          simp only [List.length_cons] at hc ⊢
          omega
        rw [Nat.sub_eq_zero_of_le h2, List.drop_zero]

theorem lastN_length (n : Nat) (l : List α) : (lastN n l).length = min n l.length := by
  simp only [lastN, List.length_drop]
  omega

theorem lastN_append_lastN (n : Nat) (l m : List α) :
    lastN n (lastN n l ++ m) = lastN n (l ++ m) := by
  unfold lastN
  have h1 : l.drop (l.length - n) ++ m = (l ++ m).drop (l.length - n) := by
    rw [List.drop_append_eq_append_drop,
      Nat.sub_eq_zero_of_le (Nat.sub_le l.length n), List.drop_zero]
  rw [h1, List.drop_drop]
  congr 1
  simp only [List.length_drop, List.length_append]
  omega

theorem addToShortTerm_of_nonneg (st : MMState) (role content : String)
    (h : 0 ≤ st.shortTermLimit) :
    addToShortTerm st role content =
      some ⟨lastN st.shortTermLimit.toNat (st.shortTerm ++ [render role content]),
        st.shortTermLimit,
        if role.toLower == "user" then st.userMessageCount + 1
        else st.userMessageCount⟩ := by
  unfold addToShortTerm
  rw [popLoop_of_nonneg _ h]
  rfl

theorem runAdds_of_nonneg (pairs : List (String × String)) :
    ∀ (buf : List String) (cnt : Nat) (L : Int), 0 ≤ L → buf.length ≤ L.toNat →
      runAdds ⟨buf, L, cnt⟩ pairs =
        some ⟨lastN L.toNat (buf ++ pairs.map (fun p => render p.1 p.2)), L,
          cnt + countUsers pairs⟩ := by
  induction pairs with
  | nil =>
      intro buf cnt L _ hlen
      simp only [runAdds, List.map_nil, List.append_nil, countUsers, List.filter_nil,
        List.length_nil, Nat.add_zero, lastN, Nat.sub_eq_zero_of_le hlen, List.drop_zero]
  | cons p rest ih =>
      intro buf cnt L hL hlen
      have hadd := addToShortTerm_of_nonneg ⟨buf, L, cnt⟩ p.1 p.2 hL
      simp only [runAdds, hadd]
      rw [ih _ _ L hL (by rw [lastN_length]; omega)]
      have hbuf : lastN L.toNat
            (lastN L.toNat (buf ++ [render p.1 p.2]) ++ rest.map (fun q => render q.1 q.2)) =
          lastN L.toNat (buf ++ (p :: rest).map (fun q => render q.1 q.2)) := by
        rw [lastN_append_lastN]
        congr 1
        simp [List.append_assoc]
      have hcnt : (if p.1.toLower == "user" then cnt + 1 else cnt) + countUsers rest =
          cnt + countUsers (p :: rest) := by
        simp only [countUsers, List.filter_cons]
        by_cases hp : (p.1.toLower == "user") = true
        · simp only [hp, if_pos, List.length_cons]
          omega
        · simp only [hp, Bool.false_eq_true, if_false]
      rw [hbuf, hcnt]

/- ------------------------------------------------------------------ -/
/- Claim theorems                                                      -/
/- ------------------------------------------------------------------ -/

/-- Claim C1: for every capacity N and every sequence of `add_to_short_term`
calls, every call succeeds, the short-term buffer's length never exceeds N
(it equals min(N, total appends)), and the buffer holds exactly the most
recently appended rendered turns in append order: it is the suffix of the
full append log of length min(N, total), i.e. eviction is strict FIFO.
Since the sequence of calls is arbitrary, this holds after each call of any
longer sequence as well. -/
theorem shortTerm_capacity_fifo (N : Nat) (pairs : List (String × String)) :
    ∃ st', runAdds (initState N) pairs = some st' ∧
      st'.shortTerm = lastN N (pairs.map (fun p => render p.1 p.2)) ∧
      st'.shortTerm.length = min N pairs.length ∧
      st'.shortTerm <:+ pairs.map (fun p => render p.1 p.2) := by
  have h0 : (0 : Int) ≤ (N : Int) := by omega
  have h := runAdds_of_nonneg pairs [] 0 (N : Int) h0 (by simp)
  have hN : ((N : Int)).toNat = N := by omega
  rw [hN, List.nil_append] at h
  exact ⟨_, h, rfl, by rw [lastN_length, List.length_map], List.drop_suffix _ _⟩

/-- Claim C2: after any sequence of `add_to_short_term` calls from a fresh
manager, `user_message_count` equals the number of calls whose role
lowercases to "user", independent of eviction; moreover no single
`add_to_short_term` call ever decreases the counter, and
`maybe_summarize_short_term` leaves it unchanged. -/
theorem userMessageCount_spec :
    (∀ (N : Nat) (pairs : List (String × String)) (st' : MMState),
        runAdds (initState N) pairs = some st' →
        st'.userMessageCount = countUsers pairs) ∧
    (∀ (st : MMState) (role content : String) (st' : MMState),
        addToShortTerm st role content = some st' →
        st.userMessageCount ≤ st'.userMessageCount) ∧
    (∀ (st : MMState) (llm : String → Except String String),
        (maybeSummarizeShortTerm st llm).state.userMessageCount = st.userMessageCount) := by
  refine ⟨?_, ?_, ?_⟩
  · intro N pairs st' h
    have h2 := runAdds_of_nonneg pairs [] 0 (N : Int) (by omega) (by simp)
    have h3 := h2.symm.trans h
    obtain rfl := Option.some.inj h3
    exact Nat.zero_add _
  · intro st role content st' h
    unfold addToShortTerm at h
    split at h
    · exact absurd h (by simp)
    · obtain rfl := Option.some.inj h
      change st.userMessageCount ≤
        if (role.toLower == "user") = true then st.userMessageCount + 1
        else st.userMessageCount
      split <;> omega
  · intro st llm
    unfold maybeSummarizeShortTerm
    by_cases hc : (st.userMessageCount % 10 = 0 ∧ st.userMessageCount > 0)
    · rw [if_pos hc]
      cases hl : llm (summarizationPrompt (String.intercalate "\n" st.shortTerm)) with
      | error e => rfl
      | ok s => rfl
    · rw [if_neg hc]

/-- Claim C3: consolidation observably fires (a summary is stored, or the
delegate's exception escapes) exactly when `user_message_count` is a
positive multiple of the threshold 10, for every state and every delegate;
the right-hand side mentions only the cumulative counter, so the decision
is independent of the turns resident in the buffer. -/
theorem consolidation_fires_iff (st : MMState) (llm : String → Except String String) :
    consolidationFired (maybeSummarizeShortTerm st llm) ↔
      ∃ m : Nat, 0 < m ∧ st.userMessageCount = 10 * m := by
  unfold maybeSummarizeShortTerm consolidationFired
  by_cases hc : (st.userMessageCount % 10 = 0 ∧ st.userMessageCount > 0)
  · rw [if_pos hc]
    constructor
    · intro _
      obtain ⟨h1, h2⟩ := hc
      exact ⟨st.userMessageCount / 10, by omega, by omega⟩
    · intro _
      cases hl : llm (summarizationPrompt (String.intercalate "\n" st.shortTerm)) with
      | error e => simp
      | ok s => simp
  · rw [if_neg hc]
    constructor
    · intro h
      rcases h with h | h
      · exact absurd rfl h
      · exact absurd rfl h
    · rintro ⟨m, hm, he⟩
      exact absurd ⟨by omega, by omega⟩ hc

/-- Claim C4 counterexample: at a state with 10 user messages (the trigger
fires) and a delegate that raises, `maybe_summarize_short_term` does not
return normally: the delegate's error escapes to the caller, so the claim
that failures are caught inside `maybe_summarize_short_term` is false. -/
theorem maybeSummarize_error_escapes_cex :
    (maybeSummarizeShortTerm ⟨["User: hi"], 10, 10⟩
        (fun _ => Except.error "network error")).result = Except.error "network error" ∧
      (maybeSummarizeShortTerm ⟨["User: hi"], 10, 10⟩
        (fun _ => Except.error "network error")).result ≠ Except.ok () := by
  exact ⟨rfl, fun h => Except.noConfusion h⟩

/-- Claim C4 (amended): `maybe_summarize_short_term` contains no error
handling; whenever the trigger condition holds and the delegate raises,
the error propagates unchanged to the caller. -/
theorem maybeSummarize_error_propagates (st : MMState) (e : String)
    (h1 : st.userMessageCount % 10 = 0) (h2 : st.userMessageCount > 0) :
    (maybeSummarizeShortTerm st (fun _ => Except.error e)).result = Except.error e := by
  unfold maybeSummarizeShortTerm
  rw [if_pos ⟨h1, h2⟩]

/-- Witness for the amended C4 theorem at a concrete state and error. -/
theorem maybeSummarize_error_propagates_witness :
    (maybeSummarizeShortTerm ⟨["User: q"], 10, 10⟩
        (fun _ => Except.error "timeout")).result = Except.error "timeout" :=
  maybeSummarize_error_propagates ⟨["User: q"], 10, 10⟩ "timeout" rfl (by decide)

/-- Claim C5: for every state and every delegate (succeeding or raising),
`maybe_summarize_short_term` leaves the short-term buffer exactly as it
was; when the delegate raises, no summary is passed to
`store_long_term_memory`; and `store_long_term_memory` itself never
touches the buffer, so eviction happens only inside `add_to_short_term`. -/
theorem maybeSummarize_frame (st : MMState) (llm : String → Except String String) :
    (maybeSummarizeShortTerm st llm).state.shortTerm = st.shortTerm ∧
      (∀ e, (maybeSummarizeShortTerm st llm).result = Except.error e →
        (maybeSummarizeShortTerm st llm).storeCalls = []) ∧
      (∀ summary, (storeLongTermMemory st summary).shortTerm = st.shortTerm) := by
  unfold maybeSummarizeShortTerm
  by_cases hc : (st.userMessageCount % 10 = 0 ∧ st.userMessageCount > 0)
  · rw [if_pos hc]
    cases hl : llm (summarizationPrompt (String.intercalate "\n" st.shortTerm)) with
    | error e => exact ⟨rfl, fun _ _ => rfl, fun _ => rfl⟩
    | ok s => exact ⟨rfl, fun _ he => Except.noConfusion he, fun _ => rfl⟩
  · rw [if_neg hc]
    exact ⟨rfl, fun _ he => Except.noConfusion he, fun _ => rfl⟩

/-- Claim C6: `build_llm_prompt` is deterministic in its inputs: two states
with identical short-term buffer contents (all other fields free) and
identical user message and relevant memories yield character-for-character
identical prompts.  The embedding of the source is a pure function of
exactly these inputs, reflecting that the method reads only
`self.short_term` and calls no collaborator. -/
theorem buildLlmPrompt_deterministic (st₁ st₂ : MMState) (userMessage : String)
    (relevantMemories : List String) (h : st₁.shortTerm = st₂.shortTerm) :
    buildLlmPrompt st₁ userMessage relevantMemories =
      buildLlmPrompt st₂ userMessage relevantMemories := by
  unfold buildLlmPrompt
  rw [h]

/-- Witness for the C6 theorem: two states equal only in their buffers. -/
theorem buildLlmPrompt_deterministic_witness :
    buildLlmPrompt ⟨["User: hi"], 10, 3⟩ "next question" ["fact one"] =
      buildLlmPrompt ⟨["User: hi"], 5, 0⟩ "next question" ["fact one"] :=
  buildLlmPrompt_deterministic ⟨["User: hi"], 10, 3⟩ ⟨["User: hi"], 5, 0⟩
    "next question" ["fact one"] rfl

/-- Claim C7: the prompt is one string made of the facts section, the
recent-conversation section and the new user message, in this fixed order,
each introduced by a fixed delimiter and followed by the fixed closing
instruction; no input section is dropped, and with no relevant memories
the facts section is emitted empty inside the same structure. -/
theorem buildLlmPrompt_structure (st : MMState) (userMessage : String)
    (relevantMemories : List String) :
    buildLlmPrompt st userMessage relevantMemories =
        promptFactsHeader ++ String.intercalate "\n" relevantMemories ++
          promptConversationHeader ++ String.intercalate "\n" st.shortTerm ++
          promptUserHeader ++ userMessage ++ promptClosing ∧
      buildLlmPrompt st userMessage [] =
        promptFactsHeader ++ "" ++
          promptConversationHeader ++ String.intercalate "\n" st.shortTerm ++
          promptUserHeader ++ userMessage ++ promptClosing :=
  ⟨rfl, rfl⟩

/-- Claim C8: `get_relevant_memories` returns the empty list for every
query and every manager state (the store holds no records in this
implementation), and in particular never raises: it is a total function. -/
theorem getRelevantMemories_empty (st : MMState) (query : String) :
    getRelevantMemories st query = [] :=
  rfl

/-- Claim C9 counterexample: with the configured `short_term_limit = -1`
(the constructor accepts any integer), the very first `add_to_short_term`
call raises `IndexError` (`pop(0)` on an emptied list), modelled as
`none` — so appending is not error-free for every configured limit. -/
theorem addToShortTerm_negative_limit_raises :
    addToShortTerm ⟨[], -1, 0⟩ "user" "hello" = none := by
  rfl

/-- Claim C9 (amended): for every nonnegative configured
`short_term_limit` (in particular the default 10), every role string and
every content string, `add_to_short_term` terminates and succeeds. -/
theorem addToShortTerm_total_of_nonneg (st : MMState) (role content : String)
    (h : 0 ≤ st.shortTermLimit) :
    ∃ st', addToShortTerm st role content = some st' :=
  ⟨_, addToShortTerm_of_nonneg st role content h⟩

/-- Witness for the amended C9 theorem at a concrete state. -/
theorem addToShortTerm_total_of_nonneg_witness :
    ∃ st', addToShortTerm ⟨[], 3, 0⟩ "user" "hello" = some st' :=
  addToShortTerm_total_of_nonneg ⟨[], 3, 0⟩ "user" "hello" (by decide)

/-- Claim C10: long-term memory is a no-op at the public interface:
`store_long_term_memory` returns the state unchanged for every summary,
and `get_relevant_memories` returns the empty list for every query in
every state — in particular after any sequence of prior operations — so
the relevant-memories input that this path feeds into `build_llm_prompt`
is always the empty list. -/
theorem longTermMemory_noop (st : MMState) (summary query : String) :
    storeLongTermMemory st summary = st ∧ getRelevantMemories st query = [] :=
  ⟨rfl, rfl⟩
